import Mathlib

/-!
Verification of the psrp connection plugins (`_psrp_base.py`, `psrp_winrm.py`):
a shallow embedding of the host-callback sink, the runspace-session lifecycle,
the `exec_command` algorithm and the WinRM connection-info resolver, together
with theorems settling the specification claims.
-/

namespace Psrp

/-! ### Character and base64 helpers -/

/-- The base64 alphabet `[A-Za-z0-9+/]` used by `_COMMAND_PATTERN`. -/
def isB64 (c : Char) : Bool :=
  (decide ('A' ≤ c) && decide (c ≤ 'Z')) ||
  (decide ('a' ≤ c) && decide (c ≤ 'z')) ||
  (decide ('0' ≤ c) && decide (c ≤ '9')) ||
  decide (c = '+') || decide (c = '/')

/-- The payload grammar of `_COMMAND_PATTERN`:
`(?:[A-Za-z0-9+/]{4})*(?:[A-Za-z0-9+/]{2}==|[A-Za-z0-9+/]{3}=)?` matched
against the whole character list. -/
def isB64Payload : List Char → Bool
  | [] => true
  | a :: b :: c :: d :: rest =>
    if rest.isEmpty then
      isB64 a && isB64 b &&
        ((decide (c = '=') && decide (d = '=')) ||
         (isB64 c && decide (d = '=')) ||
         (isB64 c && isB64 d))
    else
      isB64 a && isB64 b && isB64 c && isB64 d && isB64Payload rest
  | _ => false

/-- Value of one base64 digit, as in `base64.b64decode`. -/
def b64Val (c : Char) : Nat :=
  if 'A' ≤ c ∧ c ≤ 'Z' then c.toNat - 65
  else if 'a' ≤ c ∧ c ≤ 'z' then c.toNat - 71
  else if '0' ≤ c ∧ c ≤ '9' then c.toNat + 4
  else if c = '+' then 62
  else if c = '/' then 63
  else 0

/-- Python `base64.b64decode` on a grammar-valid payload: groups of four digits give
three bytes, a `==`-padded final group one byte, a `=`-padded final group two
bytes. -/
def b64decodeChars : List Char → List Nat
  | a :: b :: c :: d :: rest =>
    if c = '=' then
      [(b64Val a * 4 + b64Val b / 16) % 256]
    else if d = '=' then
      let n := b64Val a * 1024 + b64Val b * 16 + b64Val c / 4
      [n / 256 % 256, n % 256]
    else
      let n := b64Val a * 262144 + b64Val b * 4096 + b64Val c * 64 + b64Val d
      n / 65536 % 256 :: (n / 256 % 256) :: (n % 256) :: b64decodeChars rest
  | _ => []

/-- Pair up little-endian bytes into UTF-16 code units, as the first phase of
`bytes.decode("utf-16-le")`; an odd byte count is truncated data, an error. -/
def utf16leUnits : List Nat → Option (List Nat)
  | [] => some []
  | [_] => none
  | b0 :: b1 :: rest => (utf16leUnits rest).map fun us => (b0 + 256 * b1) :: us

/-- Decode a UTF-16 code-unit sequence to characters: non-surrogate units map
directly, a high surrogate must be followed by a low surrogate, anything else
is a decode error. -/
def utf16Chars : List Nat → Option (List Char)
  | [] => some []
  | [u] =>
    if u < 0xD800 || decide (0xDFFF < u) then some [Char.ofNat u] else none
  | u :: w :: rest =>
    if u < 0xD800 || decide (0xDFFF < u) then
      (utf16Chars (w :: rest)).map fun cs => Char.ofNat u :: cs
    else if decide (u ≤ 0xDBFF) && decide (0xDC00 ≤ w) && decide (w ≤ 0xDFFF) then
      (utf16Chars rest).map fun cs =>
        Char.ofNat (0x10000 + (u - 0xD800) * 0x400 + (w - 0xDC00)) :: cs
    else none

/-- Python `bytes.decode("utf-16-le")`. -/
def utf16leDecode (bytes : List Nat) : Option String :=
  (utf16leUnits bytes).bind fun us => (utf16Chars us).map fun cs => String.mk cs

/-! ### Python string helpers used by `exec_command` -/

/-- Line-boundary characters recognised by Python `str.splitlines`. -/
def isPyLineBreak (c : Char) : Bool :=
  decide (c = '\n') || decide (c = '\r') || decide (c = '\x0b') ||
  decide (c = '\x0c') || decide (c = '\x1c') || decide (c = '\x1d') ||
  decide (c = '\x1e') || decide (c = '\x85') || decide (c = '\u2028') ||
  decide (c = '\u2029')

/-- Python `s.splitlines()[0]` for a non-empty string. -/
def pyFirstLine (s : String) : String :=
  String.mk (s.data.takeWhile (fun c => !isPyLineBreak c))

/-- Python `s.startswith("#!")`. -/
def pyStartsWithShebang (s : String) : Bool :=
  match s.data with
  | '#' :: '!' :: _ => true
  | _ => false

/-- Python `in_data.decode() if in_data else None`: empty or absent input bytes give
no input data. -/
def pyInputData (in_data : Option String) : Option String :=
  match in_data with
  | some d => if d = "" then none else some d
  | none => none

/-- Python `"\n".join(parts)`. -/
def joinNewline : List String → String
  | [] => ""
  | [x] => x
  | x :: y :: rest => x ++ "\n" ++ joinNewline (y :: rest)

/-! ### The `_COMMAND_PATTERN` regex search -/

/-- Boolean prefix test on character lists. -/
def startsWithChars : List Char → List Char → Bool
  | [], _ => true
  | _ :: _, [] => false
  | a :: as, b :: bs => decide (a = b) && startsWithChars as bs

/-- The literal part of `_COMMAND_PATTERN`. -/
def encMarker : List Char := "-EncodedCommand ".data

/-- Attempt of `_COMMAND_PATTERN` at one start position `i` of `l`: the
literal marker must occur at `i`, followed by a grammar-valid payload
reaching the end of the string (a bare Python `$`), or reaching the position
just before a newline that is the last character of the string (`$` also
matches there).  Returns group 1, the payload. -/
def matchAt (l : List Char) (i : Nat) : Option String :=
  if startsWithChars encMarker (l.drop i) then
    let rest := (l.drop i).drop 16
    if isB64Payload rest then some (String.mk rest)
    else if rest.getLast? = some '\n' then
      if isB64Payload rest.dropLast then some (String.mk rest.dropLast) else none
    else none
  else none

/-- Model of `_COMMAND_PATTERN.search(cmd)`: the leftmost start position at which the
pattern matches, returning group 1 (the base64 payload). -/
def pyMatchEncoded (cmd : String) : Option String :=
  (List.range (cmd.data.length + 1)).findSome? (fun i => matchAt cmd.data i)

/-- Follows the claim's words: the pattern attempt at position `i` anchored at
the very end of the string — the marker at `i` followed by a grammar-valid
payload that consumes everything up to the end of the input. -/
def specAt (l : List Char) (i : Nat) : Bool :=
  startsWithChars encMarker (l.drop i) && isB64Payload ((l.drop i).drop 16)

/-- Follows the claim's words: the string ends — anchored at the end of the
input string — with `-EncodedCommand ` followed by zero or more groups of 4
base64 characters optionally terminated by a padded group. -/
def specEncodedAtEnd (s : String) : Bool :=
  (List.range (s.data.length + 1)).any (fun i => specAt s.data i)

/-- The other way the Python `$` anchor can succeed at position `i`: the
payload stops just before a newline that is the final character of the
input. -/
def nlAt (l : List Char) (i : Nat) : Bool :=
  startsWithChars encMarker (l.drop i) &&
  decide (((l.drop i).drop 16).getLast? = some '\n') &&
  isB64Payload ((l.drop i).drop 16).dropLast

/-! ### Data model: host sink, runspace, connection state -/

/-- Subset of `psrpcore.types.RunspacePoolState` the plugin consults. -/
inductive RunspacePoolState where
  | Opened
  | Closed
  | Broken
deriving DecidableEq, Repr

/-- A `psrp.SyncRunspacePool` handle as the plugin observes it: an identity
(which physical connection attempt produced it) and its transport state. -/
structure Runspace where
  id : Nat
  state : RunspacePoolState
deriving DecidableEq, Repr

/-- The mutable state of a `PSRPBaseConnection` object together with its
owned `PSHost`/`PSHostUI` pair, plus transport-call counters that record how
many times a physical connection was opened or gracefully closed. -/
structure ConnState where
  hostExitCode : Int
  uiStdout : String
  uiStderr : String
  runspace : Option Runspace
  connected : Bool
  openCount : Nat
  closeCount : Nat
deriving DecidableEq, Repr

/-- A host callback the transport may deliver while a pipeline runs: one of
the `PSHostUI` write methods or `PSHost.set_should_exit`. -/
inductive HostCall where
  | write (value : String)
  | write_debug_line (line : String)
  | write_error_line (line : String)
  | write_line (line : Option String)
  | write_verbose_line (line : String)
  | write_warning_line (line : String)
  | write_progress (args : List String) (kwargs : List (String × String))
  | set_should_exit (code : Int)
deriving DecidableEq, Repr

/-- Effect of one host callback on the connection's sink, following the
`PSHost`/`PSHostUI` method bodies. -/
def applyHostCall (c : HostCall) (s : ConnState) : ConnState :=
  match c with
  | .write v => { s with uiStdout := s.uiStdout ++ v }
  | .write_debug_line l => { s with uiStdout := s.uiStdout ++ "DEBUG: " ++ l ++ "\n" }
  | .write_error_line l => { s with uiStderr := s.uiStderr ++ l ++ "\n" }
  | .write_line l => { s with uiStdout := s.uiStdout ++ l.getD "" ++ "\n" }
  | .write_verbose_line l => { s with uiStdout := s.uiStdout ++ "VERBOSE: " ++ l ++ "\n" }
  | .write_warning_line l => { s with uiStdout := s.uiStdout ++ "WARNING: " ++ l ++ "\n" }
  | .write_progress _ _ => s
  | .set_should_exit code => { s with hostExitCode := code }

/-- Apply a sequence of host callbacks in delivery order. -/
def applyHostCalls (cs : List HostCall) (s : ConnState) : ConnState :=
  cs.foldl (fun s c => applyHostCall c s) s

/-- Behaviour the remote side exhibits during one `ps.invoke`: the host
callbacks it delivers, the structured output objects (already stringified),
the error-stream entries, the `had_errors` flag, and whether the invocation
itself raises. -/
structure InvokeBehavior where
  hostCalls : List HostCall
  output : List String
  errors : List String
  hadErrors : Bool
  invokeFails : Bool
deriving DecidableEq, Repr

/-- Exceptions escaping the plugin's methods. -/
inductive ExecErr where
  | ansibleError (msg : String)
  | decodeError
  | invokeError
deriving DecidableEq, Repr

/-! ### Operations of `PSRPBaseConnection` -/

/-- Model of `PSRPBaseConnection._get_runspace`: raise if the psrp dependency is
missing, reuse the held runspace if any, otherwise construct and open one
(one physical connection attempt) and set the connected flag. -/
def _get_runspace (hasPsrp : Bool) (s : ConnState) :
    Except ExecErr (ConnState × Runspace) :=
  if hasPsrp = false then
    .error (.ansibleError "pypsrp or dependencies are not installed")
  else
    match s.runspace with
    | some r => .ok (s, r)
    | none =>
      let r : Runspace := ⟨s.openCount, .Opened⟩
      .ok ({ s with runspace := some r, connected := true,
                    openCount := s.openCount + 1 }, r)

/-- Lines 157-186 of `exec_command`: invoke the pipeline (applying the host
callbacks the remote delivers), and unless the invocation raises, compute the
return code, drain structured output then host-sink text, reset the sink, and
join the parts with newlines. -/
def invokePhase (s : ConnState) (scripts : List String) (beh : InvokeBehavior) :
    ConnState × List String × Except ExecErr (Int × String × String) :=
  let s1 := applyHostCalls beh.hostCalls s
  if beh.invokeFails then
    (s1, scripts, .error .invokeError)
  else
    let rc : Int :=
      if s1.hostExitCode ≠ 0 then s1.hostExitCode
      else if beh.hadErrors then 1 else 0
    let stdout := beh.output ++ (if s1.uiStdout ≠ "" then [s1.uiStdout] else [])
    let stderr := beh.errors ++ (if s1.uiStderr ≠ "" then [s1.uiStderr] else [])
    let s2 := { s1 with hostExitCode := 0, uiStdout := "", uiStderr := "" }
    (s2, scripts, .ok (rc, joinNewline stdout, joinNewline stderr))

/-- Model of `PSRPBaseConnection.exec_command`.  Returns the connection state and the
scripts added to the pipeline even when an exception escapes, since those
mutations persist past the raise.  `in_data` empty or absent yields no input
data; an encoded command is recognised by `_COMMAND_PATTERN`, decoded from
base64 as UTF-16LE and submitted verbatim; a shebang input payload on the
encoded path raises an `AnsibleError` naming the interpreter before the
pipeline is invoked; a plain command is submitted with an
`exit $LASTEXITCODE` suffix. -/
def exec_command (hasPsrp : Bool) (transport : String) (s0 : ConnState)
    (cmd : String) (in_data : Option String) (beh : InvokeBehavior) :
    ConnState × List String × Except ExecErr (Int × String × String) :=
  match _get_runspace hasPsrp s0 with
  | .error e => (s0, [], .error e)
  | .ok (s1, _) =>
    match pyMatchEncoded cmd with
    | some payload =>
      match utf16leDecode (b64decodeChars payload.data) with
      | none => (s1, [], .error .decodeError)
      | some script =>
        match pyInputData in_data with
        | some idata =>
          if pyStartsWithShebang idata then
            let interpreter := String.mk ((pyFirstLine idata).data.drop 2)
            (s1, [script], .error (.ansibleError
              ("cannot run the interpreter \x27" ++ interpreter ++
               "\x27 on the " ++ transport ++ " connection plugin")))
          else
            invokePhase s1 [script] beh
        | none => invokePhase s1 [script] beh
    | none =>
      let script := cmd ++ "\nexit $LASTEXITCODE"
      invokePhase s1 [script] beh

/-- Model of `PSRPBaseConnection.close`: a no-op when not connected; otherwise fetch
the held runspace, gracefully close it only when its transport state is
`Opened`, and always clear the held reference and connected flag. -/
def close (hasPsrp : Bool) (s : ConnState) : Except ExecErr ConnState :=
  if s.connected = false then .ok s
  else
    match _get_runspace hasPsrp s with
    | .error e => .error e
    | .ok (s1, r) =>
      let s2 :=
        if r.state = RunspacePoolState.Opened then
          { s1 with closeCount := s1.closeCount + 1 }
        else s1
      .ok { s2 with runspace := none, connected := false }

/-- Model of `PSRPBaseConnection.reset`: a no-op when not connected; otherwise close
and immediately re-establish the runspace. -/
def reset (hasPsrp : Bool) (s : ConnState) : Except ExecErr ConnState :=
  if s.connected = false then .ok s
  else
    match close hasPsrp s with
    | .error e => .error e
    | .ok s1 =>
      match _get_runspace hasPsrp s1 with
      | .error e => .error e
      | .ok (s2, _) => .ok s2

/-! ### The WinRM connection-info resolver (`psrp_winrm.py`) -/

/-- The options the WinRM `Connection._get_connection_info` reads. -/
structure WinRMOptions where
  hostname : String
  remote_user : Option String
  remote_password : Option String
  use_tls : Bool
  port : Option Int
  path : String
  auth : String
  cert_validation : String
deriving DecidableEq, Repr

/-- The `psrp.WSManInfo` arguments the resolver produces. -/
structure WSManInfo where
  hostname : String
  scheme : String
  port : Int
  path : String
  verify : Bool
  auth : String
  username : Option String
  password : Option String
deriving DecidableEq, Repr

/-- Model of `Connection._get_connection_info` of the WinRM variant. -/
def winrm_get_connection_info (o : WinRMOptions) : WSManInfo :=
  let port : Int :=
    match o.port with
    | none => if o.use_tls then 5986 else 5985
    | some p => p
  { hostname := o.hostname
    scheme := if o.use_tls then "https" else "http"
    port := port
    path := o.path
    verify := if o.cert_validation = "ignore" then false else true
    auth := o.auth
    username := o.remote_user
    password := o.remote_password }

/-! ### Concrete fixtures used by witnesses and counterexamples -/

/-- A freshly constructed connection: clean sink, no runspace, not connected. -/
def cleanState : ConnState := ⟨0, "", "", none, false, 0, 0⟩

/-- A connection whose runspace is already open. -/
def openState : ConnState := ⟨0, "", "", some ⟨0, .Opened⟩, true, 1, 0⟩

/-- A remote that emits nothing and succeeds. -/
def quietBeh : InvokeBehavior := ⟨[], [], [], false, false⟩

/-! ### Shared lemmas -/

theorem applyHostCalls_nil (s : ConnState) : applyHostCalls [] s = s := rfl

theorem applyHostCalls_cons (c : HostCall) (cs : List HostCall) (s : ConnState) :
    applyHostCalls (c :: cs) s = applyHostCalls cs (applyHostCall c s) := rfl

theorem applyHostCalls_append (l1 l2 : List HostCall) (s : ConnState) :
    applyHostCalls (l1 ++ l2) s = applyHostCalls l2 (applyHostCalls l1 s) := by
  simp [applyHostCalls, List.foldl_append]

theorem applyHostCall_sink (c : HostCall) (s t : ConnState)
    (h1 : s.hostExitCode = t.hostExitCode) (h2 : s.uiStdout = t.uiStdout)
    (h3 : s.uiStderr = t.uiStderr) :
    (applyHostCall c s).hostExitCode = (applyHostCall c t).hostExitCode ∧
    (applyHostCall c s).uiStdout = (applyHostCall c t).uiStdout ∧
    (applyHostCall c s).uiStderr = (applyHostCall c t).uiStderr := by
  cases c <;> simp [applyHostCall, h1, h2, h3]

theorem applyHostCalls_sink (cs : List HostCall) (s t : ConnState)
    (h1 : s.hostExitCode = t.hostExitCode) (h2 : s.uiStdout = t.uiStdout)
    (h3 : s.uiStderr = t.uiStderr) :
    (applyHostCalls cs s).hostExitCode = (applyHostCalls cs t).hostExitCode ∧
    (applyHostCalls cs s).uiStdout = (applyHostCalls cs t).uiStdout ∧
    (applyHostCalls cs s).uiStderr = (applyHostCalls cs t).uiStderr := by
  induction cs generalizing s t with
  | nil => exact ⟨h1, h2, h3⟩
  | cons c cs ih =>
    rw [applyHostCalls_cons, applyHostCalls_cons]
    obtain ⟨g1, g2, g3⟩ := applyHostCall_sink c s t h1 h2 h3
    exact ih _ _ g1 g2 g3

theorem _get_runspace_true (s : ConnState) :
    ∃ s1 r, _get_runspace true s = .ok (s1, r) ∧
      s1.hostExitCode = s.hostExitCode ∧ s1.uiStdout = s.uiStdout ∧
      s1.uiStderr = s.uiStderr := by
  cases hs : s.runspace <;> simp [_get_runspace, hs]

theorem joinNewline_concat (l : List String) (x : String) :
    joinNewline (l ++ [x]) =
      if l = [] then x else joinNewline l ++ "\n" ++ x := by
  induction l with
  | nil => simp [joinNewline]
  | cons a l ih =>
    cases l with
    | nil => simp [joinNewline]
    | cons b l' =>
      have h1 : joinNewline (a :: b :: l' ++ [x]) =
          a ++ "\n" ++ joinNewline (b :: l' ++ [x]) := rfl
      rw [h1, ih]
      simp [joinNewline, String.append_assoc]

/-- Unfolding lemma for `invokePhase` on a successful invocation. -/
theorem invokePhase_ok (s : ConnState) (scripts : List String)
    (beh : InvokeBehavior) (sf : ConnState) (sc : List String)
    (rc : Int) (out err : String)
    (h : invokePhase s scripts beh = (sf, sc, .ok (rc, out, err))) :
    beh.invokeFails = false ∧
    sf = { applyHostCalls beh.hostCalls s with
           hostExitCode := 0, uiStdout := "", uiStderr := "" } ∧
    sc = scripts ∧
    rc = (if (applyHostCalls beh.hostCalls s).hostExitCode = 0 then
            (if beh.hadErrors then 1 else 0)
          else (applyHostCalls beh.hostCalls s).hostExitCode) ∧
    out = joinNewline (beh.output ++
      (if (applyHostCalls beh.hostCalls s).uiStdout = "" then []
       else [(applyHostCalls beh.hostCalls s).uiStdout])) ∧
    err = joinNewline (beh.errors ++
      (if (applyHostCalls beh.hostCalls s).uiStderr = "" then []
       else [(applyHostCalls beh.hostCalls s).uiStderr])) := by
  unfold invokePhase at h
  by_cases hf : beh.invokeFails <;> simp [hf] at h
  obtain ⟨e1, e2, e3, e4, e5⟩ := h
  exact ⟨by simpa using hf, e1.symm, e2.symm, e3.symm, e4.symm, e5.symm⟩

/-- Any successful `exec_command` went through `_get_runspace` and a
pipeline invocation. -/
theorem exec_command_ok_struct (hasPsrp : Bool) (transport : String)
    (s : ConnState) (cmd : String) (ind : Option String) (beh : InvokeBehavior)
    (sf : ConnState) (scripts : List String) (rc : Int) (out err : String)
    (h : exec_command hasPsrp transport s cmd ind beh =
      (sf, scripts, .ok (rc, out, err))) :
    ∃ s1 r sc, _get_runspace hasPsrp s = .ok (s1, r) ∧
      invokePhase s1 sc beh = (sf, scripts, .ok (rc, out, err)) := by
  unfold exec_command at h
  split at h
  · exact absurd h (by simp)
  next s1 r heq =>
    split at h
    next payload hpay =>
      split at h
      next hdec => exact absurd h (by simp)
      next script hdec =>
        split at h
        next idata hid =>
          split at h
          · exact absurd h (by simp)
          · exact ⟨s1, r, [script], heq, h⟩
        next hid => exact ⟨s1, r, [script], heq, h⟩
    next hpay => exact ⟨s1, r, [cmd ++ "\nexit $LASTEXITCODE"], heq, h⟩

/-- A successful `_get_runspace` never changes the sink fields. -/
theorem _get_runspace_ok_sink (hasPsrp : Bool) (s s1 : ConnState) (r : Runspace)
    (h : _get_runspace hasPsrp s = .ok (s1, r)) :
    s1.hostExitCode = s.hostExitCode ∧ s1.uiStdout = s.uiStdout ∧
    s1.uiStderr = s.uiStderr := by
  unfold _get_runspace at h
  split at h
  · exact absurd h (by simp)
  split at h
  next r0 hr =>
    simp at h
    obtain ⟨h1, -⟩ := h
    rw [← h1]
    exact ⟨rfl, rfl, rfl⟩
  next hr =>
    simp at h
    obtain ⟨h1, -⟩ := h
    rw [← h1]
    exact ⟨rfl, rfl, rfl⟩

/-- C1: for every successful `exec_command`, the returned exit code is the
host sink's recorded exit code (its value once the invocation's host
callbacks have been applied) if that is nonzero, else 1 when the pipeline
reported errors and 0 otherwise. -/
theorem exec_command_exit_code (hasPsrp : Bool) (transport : String)
    (s : ConnState) (cmd : String) (ind : Option String) (beh : InvokeBehavior)
    (sf : ConnState) (scripts : List String) (rc : Int) (out err : String)
    (h : exec_command hasPsrp transport s cmd ind beh =
      (sf, scripts, .ok (rc, out, err))) :
    rc = if (applyHostCalls beh.hostCalls s).hostExitCode ≠ 0 then
           (applyHostCalls beh.hostCalls s).hostExitCode
         else if beh.hadErrors then 1 else 0 := by
  obtain ⟨s1, r, sc, heq, hinv⟩ :=
    exec_command_ok_struct hasPsrp transport s cmd ind beh sf scripts rc out err h
  obtain ⟨p1, p2, p3⟩ := _get_runspace_ok_sink hasPsrp s s1 r heq
  obtain ⟨q1, -, -⟩ := applyHostCalls_sink beh.hostCalls s1 s p1 p2 p3
  obtain ⟨-, -, -, hrc, -, -⟩ :=
    invokePhase_ok s1 sc beh sf scripts rc out err hinv
  rw [hrc, q1]
  by_cases h0 : (applyHostCalls beh.hostCalls s).hostExitCode = 0 <;> simp [h0]

/-- C1 witness: with `set_should_exit 7` delivered and `had_errors` true the
code is 7; with no exit signal and `had_errors` true the code is 1. -/
theorem exec_command_exit_code_witness :
    exec_command true "t" cleanState "whoami" none
        ⟨[HostCall.set_should_exit 7], [], [], true, false⟩ =
      (⟨0, "", "", some ⟨0, .Opened⟩, true, 1, 0⟩,
       ["whoami\nexit $LASTEXITCODE"], .ok (7, "", "")) ∧
    exec_command true "t" cleanState "whoami" none ⟨[], [], [], true, false⟩ =
      (⟨0, "", "", some ⟨0, .Opened⟩, true, 1, 0⟩,
       ["whoami\nexit $LASTEXITCODE"], .ok (1, "", "")) ∧
    (7 : Int) =
      (if (applyHostCalls [HostCall.set_should_exit 7] cleanState).hostExitCode ≠ 0
       then (applyHostCalls [HostCall.set_should_exit 7] cleanState).hostExitCode
       else if true then 1 else 0) ∧
    (1 : Int) =
      (if (applyHostCalls ([] : List HostCall) cleanState).hostExitCode ≠ 0
       then (applyHostCalls ([] : List HostCall) cleanState).hostExitCode
       else if true then 1 else 0) :=
  ⟨rfl, rfl,
   exec_command_exit_code true "t" cleanState "whoami" none
     ⟨[HostCall.set_should_exit 7], [], [], true, false⟩
     ⟨0, "", "", some ⟨0, .Opened⟩, true, 1, 0⟩
     ["whoami\nexit $LASTEXITCODE"] 7 "" "" rfl,
   exec_command_exit_code true "t" cleanState "whoami" none
     ⟨[], [], [], true, false⟩
     ⟨0, "", "", some ⟨0, .Opened⟩, true, 1, 0⟩
     ["whoami\nexit $LASTEXITCODE"] 1 "" "" rfl⟩

/-- C4 counterexample: when the pipeline invocation raises after a host
callback has already written to the sink, `exec_command` leaves the buffered
text in place — the buffers are not empty after the call. -/
theorem exec_command_sink_reset_cex :
    (exec_command true "t" cleanState "whoami" none
        ⟨[HostCall.write "boom"], [], [], false, true⟩).2.2 =
      .error .invokeError ∧
    (exec_command true "t" cleanState "whoami" none
        ⟨[HostCall.write "boom"], [], [], false, true⟩).1.uiStdout = "boom" ∧
    ¬ (exec_command true "t" cleanState "whoami" none
        ⟨[HostCall.write "boom"], [], [], false, true⟩).1.uiStdout = "" :=
  ⟨rfl, rfl, by decide⟩

/-- C4 (amended): after every `exec_command` call that returns a result, the
host sink's stdout and stderr buffers are empty and its exit code is 0; a
call that fails during pipeline invocation after callbacks already wrote to
the buffers leaves that content behind. -/
theorem exec_command_sink_reset (hasPsrp : Bool) (transport : String)
    (s : ConnState) (cmd : String) (ind : Option String) (beh : InvokeBehavior)
    (sf : ConnState) (scripts : List String) (rc : Int) (out err : String)
    (h : exec_command hasPsrp transport s cmd ind beh =
      (sf, scripts, .ok (rc, out, err))) :
    sf.hostExitCode = 0 ∧ sf.uiStdout = "" ∧ sf.uiStderr = "" := by
  obtain ⟨s1, r, sc, heq, hinv⟩ :=
    exec_command_ok_struct hasPsrp transport s cmd ind beh sf scripts rc out err h
  obtain ⟨-, e2, -, -, -, -⟩ :=
    invokePhase_ok s1 sc beh sf scripts rc out err hinv
  rw [e2]
  exact ⟨rfl, rfl, rfl⟩

/-- C4 witness: a successful call with a host write leaves a drained sink. -/
theorem exec_command_sink_reset_witness :
    exec_command true "t" cleanState "whoami" none
        ⟨[HostCall.write "x"], ["o"], [], false, false⟩ =
      (⟨0, "", "", some ⟨0, .Opened⟩, true, 1, 0⟩, ["whoami\nexit $LASTEXITCODE"],
       .ok (0, "o\nx", "")) ∧
    ((⟨0, "", "", some ⟨0, .Opened⟩, true, 1, 0⟩ : ConnState).hostExitCode = 0 ∧
     (⟨0, "", "", some ⟨0, .Opened⟩, true, 1, 0⟩ : ConnState).uiStdout = "" ∧
     (⟨0, "", "", some ⟨0, .Opened⟩, true, 1, 0⟩ : ConnState).uiStderr = "") :=
  ⟨rfl,
   exec_command_sink_reset true "t" cleanState "whoami" none
     ⟨[HostCall.write "x"], ["o"], [], false, false⟩
     ⟨0, "", "", some ⟨0, .Opened⟩, true, 1, 0⟩
     ["whoami\nexit $LASTEXITCODE"] 0 "o\nx" "" rfl⟩

/-- C5: in every successful `exec_command`, the buffered host-callback
stdout text is a suffix of the returned stdout placed after the joined
structured pipeline output, and likewise the host stderr text follows all
structured error-stream entries. -/
theorem exec_command_host_text_after (hasPsrp : Bool) (transport : String)
    (s : ConnState) (cmd : String) (ind : Option String) (beh : InvokeBehavior)
    (sf : ConnState) (scripts : List String) (rc : Int) (out err : String)
    (h : exec_command hasPsrp transport s cmd ind beh =
      (sf, scripts, .ok (rc, out, err))) :
    ((applyHostCalls beh.hostCalls s).uiStdout ≠ "" → beh.output = [] →
      out = (applyHostCalls beh.hostCalls s).uiStdout) ∧
    ((applyHostCalls beh.hostCalls s).uiStdout ≠ "" → beh.output ≠ [] →
      out = joinNewline beh.output ++ "\n" ++
        (applyHostCalls beh.hostCalls s).uiStdout) ∧
    ((applyHostCalls beh.hostCalls s).uiStdout = "" →
      out = joinNewline beh.output) ∧
    ((applyHostCalls beh.hostCalls s).uiStderr ≠ "" → beh.errors = [] →
      err = (applyHostCalls beh.hostCalls s).uiStderr) ∧
    ((applyHostCalls beh.hostCalls s).uiStderr ≠ "" → beh.errors ≠ [] →
      err = joinNewline beh.errors ++ "\n" ++
        (applyHostCalls beh.hostCalls s).uiStderr) ∧
    ((applyHostCalls beh.hostCalls s).uiStderr = "" →
      err = joinNewline beh.errors) := by
  obtain ⟨s1, r, sc, heq, hinv⟩ :=
    exec_command_ok_struct hasPsrp transport s cmd ind beh sf scripts rc out err h
  obtain ⟨p1, p2, p3⟩ := _get_runspace_ok_sink hasPsrp s s1 r heq
  obtain ⟨-, q2, q3⟩ := applyHostCalls_sink beh.hostCalls s1 s p1 p2 p3
  obtain ⟨-, -, -, -, hout, herr⟩ :=
    invokePhase_ok s1 sc beh sf scripts rc out err hinv
  rw [q2] at hout
  rw [q3] at herr
  refine ⟨?_, ?_, ?_, ?_, ?_, ?_⟩
  · intro hne hemp
    rw [hout, hemp]
    simp [hne, joinNewline]
  · intro hne hnemp
    rw [hout, if_neg hne, joinNewline_concat]
    simp [hnemp]
  · intro hemp
    rw [hout, hemp]
    simp
  · intro hne hemp
    rw [herr, hemp]
    simp [hne, joinNewline]
  · intro hne hnemp
    rw [herr, if_neg hne, joinNewline_concat]
    simp [hnemp]
  · intro hemp
    rw [herr, hemp]
    simp

/-- C5 witness: with two structured objects and buffered host text, the host
text ends the returned stdout after the joined structured output. -/
theorem exec_command_host_text_after_witness :
    exec_command true "t" cleanState "whoami" none
        ⟨[HostCall.write "HOST", HostCall.write_error_line "EHOST"],
         ["o1", "o2"], ["e1"], false, false⟩ =
      (⟨0, "", "", some ⟨0, .Opened⟩, true, 1, 0⟩, ["whoami\nexit $LASTEXITCODE"],
       .ok (0, "o1\no2\nHOST", "e1\nEHOST\n")) ∧
    "o1\no2\nHOST" = joinNewline ["o1", "o2"] ++ "\n" ++
      (applyHostCalls [HostCall.write "HOST", HostCall.write_error_line "EHOST"]
        cleanState).uiStdout := by
  refine ⟨rfl, ?_⟩
  exact (exec_command_host_text_after true "t" cleanState "whoami" none
    ⟨[HostCall.write "HOST", HostCall.write_error_line "EHOST"],
     ["o1", "o2"], ["e1"], false, false⟩
    ⟨0, "", "", some ⟨0, .Opened⟩, true, 1, 0⟩
    ["whoami\nexit $LASTEXITCODE"] 0 "o1\no2\nHOST" "e1\nEHOST\n"
    rfl).2.1 (by decide) (by decide)

/-- Lemma: `invokePhase` never changes the scripts already added to the pipeline. -/
theorem invokePhase_scripts (s : ConnState) (sc : List String)
    (beh : InvokeBehavior) : (invokePhase s sc beh).2.1 = sc := by
  unfold invokePhase
  by_cases hf : beh.invokeFails <;> simp [hf]

/-- C2: a command not matching `_COMMAND_PATTERN` is submitted to the
pipeline as the command followed by a newline and `exit $LASTEXITCODE`; a
command matching the pattern has exactly its base64 payload, decoded as
UTF-16LE, submitted, with no exit-status suffix appended. -/
theorem exec_command_script (transport : String) (s : ConnState) (cmd : String)
    (ind : Option String) (beh : InvokeBehavior) :
    (pyMatchEncoded cmd = none →
      (exec_command true transport s cmd ind beh).2.1 =
        [cmd ++ "\nexit $LASTEXITCODE"]) ∧
    (∀ p script, pyMatchEncoded cmd = some p →
      utf16leDecode (b64decodeChars p.data) = some script →
      (exec_command true transport s cmd ind beh).2.1 = [script]) := by
  obtain ⟨s1, r, heq, -, -, -⟩ := _get_runspace_true s
  constructor
  · intro hnone
    simp only [exec_command, heq, hnone, invokePhase_scripts]
  · intro p script hp hd
    simp only [exec_command, heq, hp, hd]
    cases hi : pyInputData ind with
    | none => simp [invokePhase_scripts]
    | some idata =>
      by_cases hsb : pyStartsWithShebang idata <;>
        simp [hsb, invokePhase_scripts]

/-- C2 witness: `whoami` gets the exit-status suffix; the encoded command
`aABpAA==` decodes (UTF-16LE) to `hi`, which is submitted verbatim. -/
theorem exec_command_script_witness :
    pyMatchEncoded "whoami" = none ∧
    (exec_command true "t" cleanState "whoami" none quietBeh).2.1 =
      ["whoami" ++ "\nexit $LASTEXITCODE"] ∧
    pyMatchEncoded "powershell -EncodedCommand aABpAA==" = some "aABpAA==" ∧
    utf16leDecode (b64decodeChars "aABpAA==".data) = some "hi" ∧
    (exec_command true "t" cleanState
        "powershell -EncodedCommand aABpAA==" none quietBeh).2.1 = ["hi"] :=
  ⟨rfl,
   (exec_command_script "t" cleanState "whoami" none quietBeh).1 rfl,
   rfl, rfl,
   (exec_command_script "t" cleanState "powershell -EncodedCommand aABpAA=="
     none quietBeh).2 "aABpAA==" "hi" rfl rfl⟩

/-- C3 counterexample: a non-encoded command with a shebang input payload is
not rejected — it executes and succeeds — and the failing encoded-command
call mutates session state on a previously unopened connection (the lazy
open): `connected` flips from `false` to `true`. -/
theorem exec_command_shebang_cex :
    (exec_command true "psrp" cleanState "whoami"
        (some "#!/usr/bin/python\nx") quietBeh).2.2 = .ok (0, "", "") ∧
    cleanState.connected = false ∧
    (exec_command true "psrp" cleanState "powershell -EncodedCommand aABpAA=="
        (some "#!/usr/bin/python\nx") quietBeh).2.2 =
      .error (.ansibleError
        "cannot run the interpreter \x27/usr/bin/python\x27 on the psrp connection plugin") ∧
    (exec_command true "psrp" cleanState "powershell -EncodedCommand aABpAA=="
        (some "#!/usr/bin/python\nx") quietBeh).1.connected = true :=
  ⟨rfl, rfl, rfl, rfl⟩

/-- C3 (amended): an `exec_command` whose command is encoded and whose input
payload starts with `#!` fails with an `AnsibleError` naming the interpreter
extracted from the payload's first line, before the pipeline is invoked: the
script is added but nothing is drained, the sink is untouched, and the only
possible session mutation is the lazy open — an already-open session is left
exactly as it was. -/
theorem exec_command_shebang (transport : String) (s : ConnState)
    (cmd p script idata : String) (ind : Option String) (beh : InvokeBehavior)
    (hp : pyMatchEncoded cmd = some p)
    (hd : utf16leDecode (b64decodeChars p.data) = some script)
    (hi : pyInputData ind = some idata)
    (hs : pyStartsWithShebang idata = true) :
    ∃ s1 r, _get_runspace true s = .ok (s1, r) ∧
      exec_command true transport s cmd ind beh =
        (s1, [script], .error (.ansibleError
          ("cannot run the interpreter \x27" ++
           String.mk ((pyFirstLine idata).data.drop 2) ++
           "\x27 on the " ++ transport ++ " connection plugin"))) ∧
      s1.hostExitCode = s.hostExitCode ∧ s1.uiStdout = s.uiStdout ∧
      s1.uiStderr = s.uiStderr ∧
      (∀ r0, s.runspace = some r0 → s1 = s) := by
  obtain ⟨s1, r, heq, p1, p2, p3⟩ := _get_runspace_true s
  refine ⟨s1, r, heq, ?_, p1, p2, p3, ?_⟩
  · simp only [exec_command, heq, hp, hd, hi, hs, if_true]
  · intro r0 hr0
    unfold _get_runspace at heq
    simp [hr0] at heq
    exact heq.1.symm

/-- C3 witness: on an already-open session, the shebang rejection returns
the exact error message and leaves the state unchanged. -/
theorem exec_command_shebang_witness :
    exec_command true "psrp" openState "powershell -EncodedCommand aABpAA=="
        (some "#!/usr/bin/python\nx") quietBeh =
      (openState, ["hi"], .error (.ansibleError
        "cannot run the interpreter \x27/usr/bin/python\x27 on the psrp connection plugin")) := by
  obtain ⟨s1, r, heq, hexec, -, -, -, hopen⟩ :=
    exec_command_shebang "psrp" openState "powershell -EncodedCommand aABpAA=="
      "aABpAA==" "hi" "#!/usr/bin/python\nx" (some "#!/usr/bin/python\nx")
      quietBeh rfl rfl rfl rfl
  have hs1 : s1 = openState := hopen ⟨0, .Opened⟩ rfl
  rw [hs1] at hexec
  exact hexec.trans (by rfl)

/-- C6: the lazy accessor is idempotent once open — with a held runspace it
returns the same state and the same handle without opening anything; on an
unopened connection the first call opens exactly one physical connection
(the open counter increments by one) and every later call returns that same
handle with the state unchanged. -/
theorem _get_runspace_idempotent :
    (∀ s r, s.runspace = some r → _get_runspace true s = .ok (s, r)) ∧
    (∀ s, s.runspace = none → ∃ s1 r, _get_runspace true s = .ok (s1, r) ∧
      s1.openCount = s.openCount + 1 ∧ s1.runspace = some r ∧
      s1.connected = true ∧ _get_runspace true s1 = .ok (s1, r)) := by
  constructor
  · intro s r hr
    simp [_get_runspace, hr]
  · intro s hr
    refine ⟨{ s with runspace := some (Runspace.mk s.openCount .Opened),
                     connected := true,
                     openCount := s.openCount + 1 },
            Runspace.mk s.openCount .Opened,
            by simp [_get_runspace, hr], rfl, rfl, rfl,
            by simp [_get_runspace]⟩

/-- C6 witness: the accessor returns the open state unchanged with its
handle, and on the fresh state it opens exactly once. -/
theorem _get_runspace_idempotent_witness :
    _get_runspace true openState = .ok (openState, ⟨0, .Opened⟩) ∧
    (∃ s1 r, _get_runspace true cleanState = .ok (s1, r) ∧
      s1.openCount = cleanState.openCount + 1 ∧ s1.runspace = some r ∧
      s1.connected = true ∧ _get_runspace true s1 = .ok (s1, r)) :=
  ⟨_get_runspace_idempotent.1 openState ⟨0, .Opened⟩ rfl,
   _get_runspace_idempotent.2 cleanState rfl⟩

/-- C7: `close` on a never-opened (not connected) session returns the state
unchanged — no exception, no transport close call — and `reset` likewise. -/
theorem close_reset_unopened (hasPsrp : Bool) (s : ConnState)
    (h : s.connected = false) :
    close hasPsrp s = .ok s ∧ reset hasPsrp s = .ok s := by
  constructor
  · simp [close, h]
  · simp [reset, h]

/-- C7 witness: on the fresh connection state, close and reset are no-ops. -/
theorem close_reset_unopened_witness :
    cleanState.connected = false ∧
    close true cleanState = .ok cleanState ∧
    reset true cleanState = .ok cleanState :=
  ⟨rfl, (close_reset_unopened true cleanState rfl).1,
   (close_reset_unopened true cleanState rfl).2⟩

/-- C9: with no explicit port, the WinRM resolver picks 5986/https under TLS
and 5985/http otherwise; certificate verification is disabled exactly when
`cert_validation` is `"ignore"`. -/
theorem winrm_connection_info_defaults (o : WinRMOptions) :
    (o.port = none →
      (winrm_get_connection_info o).port = (if o.use_tls then 5986 else 5985) ∧
      (winrm_get_connection_info o).scheme =
        (if o.use_tls then "https" else "http")) ∧
    ((winrm_get_connection_info o).verify = false ↔
      o.cert_validation = "ignore") := by
  constructor
  · intro hp
    simp [winrm_get_connection_info, hp]
  · by_cases hc : o.cert_validation = "ignore" <;>
      simp [winrm_get_connection_info, hc]

/-- C9 witness: TLS with unset port resolves 5986/https, plain resolves
5985/http, and only `"ignore"` turns verification off. -/
theorem winrm_connection_info_defaults_witness :
    ((winrm_get_connection_info
        ⟨"h", none, none, true, none, "wsman", "negotiate", "validate"⟩).port =
          (if true then 5986 else 5985) ∧
     (winrm_get_connection_info
        ⟨"h", none, none, true, none, "wsman", "negotiate", "validate"⟩).scheme =
          (if true then "https" else "http")) ∧
    ((winrm_get_connection_info
        ⟨"h", none, none, false, none, "wsman", "negotiate", "validate"⟩).port =
          (if false then 5986 else 5985)) ∧
    (winrm_get_connection_info
        ⟨"h", none, none, false, none, "wsman", "negotiate", "ignore"⟩).verify =
      false ∧
    (winrm_get_connection_info
        ⟨"h", none, none, false, none, "wsman", "negotiate", "validate"⟩).verify =
      true :=
  ⟨(winrm_connection_info_defaults
      ⟨"h", none, none, true, none, "wsman", "negotiate", "validate"⟩).1 rfl,
   ((winrm_connection_info_defaults
      ⟨"h", none, none, false, none, "wsman", "negotiate", "validate"⟩).1 rfl).1,
   (winrm_connection_info_defaults
      ⟨"h", none, none, false, none, "wsman", "negotiate", "ignore"⟩).2.mpr rfl,
   rfl⟩

/-- C10: `write_progress` leaves the sink state entirely unchanged, and
consequently inserting a `write_progress` callback anywhere in the host-call
stream of an `exec_command` leaves the whole result unchanged — progress
records never contribute to a command result. -/
theorem write_progress_noop :
    (∀ (args : List String) (kwargs : List (String × String)) (s : ConnState),
      applyHostCall (.write_progress args kwargs) s = s) ∧
    (∀ (args : List String) (kwargs : List (String × String)) (hasPsrp : Bool)
       (transport : String) (s : ConnState) (cmd : String)
       (ind : Option String) (l1 l2 : List HostCall) (o e : List String)
       (he hf : Bool),
      exec_command hasPsrp transport s cmd ind
        ⟨l1 ++ HostCall.write_progress args kwargs :: l2, o, e, he, hf⟩ =
      exec_command hasPsrp transport s cmd ind ⟨l1 ++ l2, o, e, he, hf⟩) := by
  have hcall : ∀ (args : List String) (kwargs : List (String × String))
      (s : ConnState), applyHostCall (.write_progress args kwargs) s = s :=
    fun _ _ _ => rfl
  refine ⟨hcall, ?_⟩
  intro args kwargs hasPsrp transport s cmd ind l1 l2 o e he hf
  have hcalls : ∀ t : ConnState,
      applyHostCalls (l1 ++ HostCall.write_progress args kwargs :: l2) t =
      applyHostCalls (l1 ++ l2) t := by
    intro t
    rw [applyHostCalls_append, applyHostCalls_append, applyHostCalls_cons,
        hcall]
  have hphase : ∀ (t : ConnState) (sc : List String),
      invokePhase t sc ⟨l1 ++ HostCall.write_progress args kwargs :: l2, o, e, he, hf⟩ =
      invokePhase t sc ⟨l1 ++ l2, o, e, he, hf⟩ := by
    intro t sc
    unfold invokePhase
    rw [show (⟨l1 ++ HostCall.write_progress args kwargs :: l2, o, e, he, hf⟩ :
          InvokeBehavior).hostCalls = l1 ++ HostCall.write_progress args kwargs :: l2
        from rfl, hcalls]
  cases hg : _get_runspace hasPsrp s with
  | error err => simp [exec_command, hg]
  | ok pr =>
    obtain ⟨s1, r⟩ := pr
    cases hm : pyMatchEncoded cmd with
    | none => simp only [exec_command, hg, hm, hphase]
    | some p =>
      cases hd : utf16leDecode (b64decodeChars p.data) with
      | none => simp [exec_command, hg, hm, hd]
      | some script =>
        cases hi : pyInputData ind with
        | none => simp only [exec_command, hg, hm, hd, hi, hphase]
        | some idata =>
          by_cases hsb : pyStartsWithShebang idata <;>
            simp only [exec_command, hg, hm, hd, hi, hsb, if_true, if_false,
              Bool.false_eq_true, hphase]

/-! ### Lemmas for the `_COMMAND_PATTERN` classification -/

theorem findSome?_isSome_eq_any {α β : Type} (f : α → Option β) (l : List α) :
    (l.findSome? f).isSome = l.any fun x => (f x).isSome := by
  induction l with
  | nil => rfl
  | cons a l ih =>
    rw [List.findSome?_cons, List.any_cons]
    cases hfa : f a <;> simp [hfa, ih]

theorem any_or_split {α : Type} (l : List α) (p q : α → Bool) :
    (l.any fun x => p x || q x) = (l.any p || l.any q) := by
  induction l with
  | nil => rfl
  | cons a l ih =>
    simp only [List.any_cons, ih]
    cases p a <;> cases q a <;> simp

theorem any_congr_on {α : Type} {l : List α} {p q : α → Bool}
    (h : ∀ x ∈ l, p x = q x) : l.any p = l.any q := by
  induction l with
  | nil => rfl
  | cons a l ih =>
    simp only [List.any_cons]
    rw [h a (by simp), ih fun x hx => h x (by simp [hx])]

theorem startsWithChars_length {p x : List Char} (h : startsWithChars p x = true) :
    p.length ≤ x.length := by
  induction p generalizing x with
  | nil => simp
  | cons a p ih =>
    cases x with
    | nil => simp [startsWithChars] at h
    | cons b x' =>
      simp only [startsWithChars, Bool.and_eq_true] at h
      have := ih h.2
      simp only [List.length_cons]
      omega

theorem startsWithChars_append_eq (p x y : List Char) (h : p.length ≤ x.length) :
    startsWithChars p (x ++ y) = startsWithChars p x := by
  induction p generalizing x with
  | nil => simp [startsWithChars]
  | cons a p ih =>
    cases x with
    | nil => simp at h
    | cons b x' =>
      simp only [List.cons_append, startsWithChars, List.append_eq]
      rw [ih x' (by simpa using h)]

theorem startsWithChars_eq {p x : List Char} (h : startsWithChars p x = true)
    (hl : p.length = x.length) : p = x := by
  induction p generalizing x with
  | nil =>
    cases x with
    | nil => rfl
    | cons b x' => simp at hl
  | cons a p ih =>
    cases x with
    | nil => simp [startsWithChars] at h
    | cons b x' =>
      simp only [startsWithChars, Bool.and_eq_true, decide_eq_true_eq] at h
      simp only [List.length_cons] at hl
      rw [h.1, ih h.2 (by omega)]

theorem getLast?_drop_ne (l : List Char) (n : Nat) (h : l.drop n ≠ []) :
    (l.drop n).getLast? = l.getLast? := by
  have hn : n < l.length := by
    by_contra hc
    push_neg at hc
    exact h (List.drop_eq_nil_of_le hc)
  rw [List.getLast?_eq_getElem?, List.getLast?_eq_getElem?,
      List.getElem?_drop, List.length_drop]
  congr 1
  omega

theorem matchAt_isSome (l : List Char) (i : Nat) :
    (matchAt l i).isSome = (specAt l i || nlAt l i) := by
  unfold matchAt specAt nlAt
  simp only [List.drop_drop]
  by_cases h1 : startsWithChars encMarker (l.drop i) = true
  · by_cases h2 : isB64Payload (l.drop (i + 16)) = true
    · simp [h1, h2]
    · by_cases h3 : (l.drop (i + 16)).getLast? = some '\n'
      · by_cases h4 : isB64Payload (l.drop (i + 16)).dropLast = true <;>
          simp [h1, h2, h3, h4]
      · simp [h1, h2, h3]
  · simp only [Bool.not_eq_true] at h1
    simp [h1]

theorem nlAt_false_of_getLast (l : List Char) (i : Nat)
    (hl : ¬ l.getLast? = some '\n') : nlAt l i = false := by
  unfold nlAt
  have hdec : decide (((l.drop i).drop 16).getLast? = some '\n') = false := by
    apply decide_eq_false
    intro hg
    have hne : (l.drop i).drop 16 ≠ [] := by
      intro h0
      rw [h0] at hg
      simp at hg
    rw [List.drop_drop] at hg hne
    rw [getLast?_drop_ne l (i + 16) hne] at hg
    exact hl hg
  rw [hdec]
  simp

theorem nlAt_concat_eq_specAt (l' : List Char) (i : Nat) (hi : i ≤ l'.length) :
    nlAt (l' ++ ['\n']) i = specAt l' i := by
  have hdrop : (l' ++ ['\n']).drop i = l'.drop i ++ ['\n'] := by
    rw [List.drop_append_eq_append_drop, Nat.sub_eq_zero_of_le hi, List.drop]
  unfold nlAt specAt
  rw [hdrop]
  by_cases h16 : 16 ≤ (l'.drop i).length
  · have hd2 : (l'.drop i ++ ['\n']).drop 16 = (l'.drop i).drop 16 ++ ['\n'] := by
      rw [List.drop_append_eq_append_drop, Nat.sub_eq_zero_of_le h16, List.drop]
    rw [startsWithChars_append_eq _ _ _ (by rw [show encMarker.length = 16 from rfl]; exact h16),
        hd2, List.dropLast_concat, List.getLast?_concat]
    simp
  · push_neg at h16
    have hp1 : startsWithChars encMarker (l'.drop i) = false := by
      cases hv : startsWithChars encMarker (l'.drop i)
      · rfl
      · have := startsWithChars_length hv
        rw [show encMarker.length = 16 from rfl] at this
        omega
    have hp2 : startsWithChars encMarker (l'.drop i ++ ['\n']) = false := by
      cases hv : startsWithChars encMarker (l'.drop i ++ ['\n'])
      · rfl
      · exfalso
        have hlen := startsWithChars_length hv
        rw [show encMarker.length = 16 from rfl] at hlen
        simp only [List.length_append, List.length_cons, List.length_nil] at hlen
        have heq : encMarker = l'.drop i ++ ['\n'] := by
          apply startsWithChars_eq hv
          rw [show encMarker.length = 16 from rfl]
          simp only [List.length_append, List.length_cons, List.length_nil]
          omega
        have hg : encMarker.getLast? = some '\n' := by
          rw [heq, List.getLast?_concat]
        rw [show encMarker.getLast? = some ' ' from rfl] at hg
        simp at hg
    rw [hp1, hp2]
    simp

theorem any_nlAt_eq (l : List Char) :
    (List.range (l.length + 1)).any (fun i => nlAt l i) =
      (decide (l.getLast? = some '\n') &&
       (List.range (l.dropLast.length + 1)).any (fun i => specAt l.dropLast i)) := by
  by_cases hl : l.getLast? = some '\n'
  · have hne : l ≠ [] := by
      intro h0
      rw [h0] at hl
      simp at hl
    obtain ⟨l', rfl⟩ : ∃ l', l = l' ++ ['\n'] := by
      refine ⟨l.dropLast, ?_⟩
      have hg : l.getLast hne = '\n' := by
        have := List.getLast?_eq_getLast l hne
        rw [hl] at this
        exact (Option.some_inj.mp this).symm
      conv_lhs => rw [← List.dropLast_append_getLast hne]
      rw [hg]
    rw [List.dropLast_concat]
    have hlen : (l' ++ ['\n']).length = l'.length + 1 := by simp
    rw [hl]
    simp only [decide_True, Bool.true_and]
    rw [hlen, List.range_succ, List.any_append]
    have hlast : nlAt (l' ++ ['\n']) (l'.length + 1) = false := by
      have hdrop : (l' ++ ['\n']).drop (l'.length + 1) = [] := by
        apply List.drop_eq_nil_of_le
        simp
      unfold nlAt
      rw [hdrop]
      rw [show startsWithChars encMarker [] = false from rfl]
      simp
    rw [show (List.any [l'.length + 1] fun i => nlAt (l' ++ ['\n']) i) =
          nlAt (l' ++ ['\n']) (l'.length + 1) from by simp, hlast]
    simp only [Bool.or_false]
    exact any_congr_on fun i hi =>
      nlAt_concat_eq_specAt l' i (by
        have := List.mem_range.mp hi
        omega)
  · have hfalse : ∀ i ∈ List.range (l.length + 1), ¬ nlAt l i = true :=
      fun i _ => by rw [nlAt_false_of_getLast l i hl]; simp
    rw [List.any_eq_false.mpr hfalse]
    simp [hl]

/-- C8 counterexample: a command ending in a newline after the payload is
still classified as encoded by `_COMMAND_PATTERN.search` (Python `$` matches
just before a final newline) and is executed as an encoded command, although
the string does not end with the pattern at the end of the input. -/
theorem pattern_matches_cex :
    (pyMatchEncoded "x -EncodedCommand aABpAA==\n").isSome = true ∧
    specEncodedAtEnd "x -EncodedCommand aABpAA==\n" = false ∧
    (exec_command true "t" cleanState "x -EncodedCommand aABpAA==\n" none
      quietBeh).2.1 = ["hi"] :=
  ⟨rfl, rfl, rfl⟩

/-- C8 (amended): a command string is classified as an encoded command if
and only if it ends with `-EncodedCommand ` followed by the base64 grammar
either at the very end of the string or just before a newline that is the
string's final character. -/
theorem pattern_matches_iff (cmd : String) :
    (pyMatchEncoded cmd).isSome =
      (specEncodedAtEnd cmd ||
       (decide (cmd.data.getLast? = some '\n') &&
        specEncodedAtEnd (String.mk cmd.data.dropLast))) := by
  unfold pyMatchEncoded specEncodedAtEnd
  rw [findSome?_isSome_eq_any]
  rw [any_congr_on fun i _ => matchAt_isSome cmd.data i]
  rw [any_or_split]
  congr 1
  exact any_nlAt_eq cmd.data

end Psrp
